import Mathlib

/-!
Verification of the font-subset caching service (webfont-zh).

Shallow embedding of the Rust sources:
  * `src/utils.rs`   — `parse_codepoints`, `generate_cache_filename`,
                       `is_file_expired`, `cleanup_expired_cache`
  * `src/service.rs` — `generate_font`, `generate_font_by_id`,
                       `get_cached_font`, `regenerate_font`
  * `src/error.rs`   — `AppError` and its HTTP status mapping
  * `src/handlers.rs`— the boundary checks of `get_font`

Machine integers are modelled as `Nat` (all relevant quantities are
unsigned and no wrapping arithmetic occurs on the verified paths).
Byte buffers are `List Nat`.  Filesystem and subsetting-engine effects
are made explicit: the engine behind a `FontProcessor` is abstracted as
a coverage predicate plus a partial generation function (its internals
are out of scope per the spec), and the async recursion of
`generate_font_by_id` is embedded with an explicit fuel parameter,
`none` meaning the recursion has not terminated within that fuel.
-/

namespace WebfontZh

/-! ## `utils.rs`: parsing (`parse_codepoints`) -/

/-- Rust `char::is_whitespace` (the Unicode `White_Space` property),
used by `str::trim`. -/
def isRustWhitespace (c : Char) : Bool :=
  c.toNat ∈ [0x9, 0xA, 0xB, 0xC, 0xD, 0x20, 0x85, 0xA0, 0x1680,
    0x2000, 0x2001, 0x2002, 0x2003, 0x2004, 0x2005, 0x2006, 0x2007,
    0x2008, 0x2009, 0x200A, 0x2028, 0x2029, 0x202F, 0x205F, 0x3000]

/-- Rust `str::trim`: drop whitespace from both ends. -/
def rustTrim (s : List Char) : List Char :=
  ((s.dropWhile isRustWhitespace).reverse.dropWhile isRustWhitespace).reverse

/-- Rust `str::split(',')`: `n` commas yield `n + 1` (possibly empty)
tokens. -/
def splitComma : List Char → List (List Char)
  | [] => [[]]
  | c :: rest =>
    if c = ',' then [] :: splitComma rest
    else
      match splitComma rest with
      | [] => [[c]]
      | t :: ts => (c :: t) :: ts

/-- Digit run of Rust `u32::from_str` after the optional sign: all
characters must be ASCII digits, at least one, and the value must fit
in 32 bits (Rust reports overflow as a parse error). -/
def parseDigits (s : List Char) : Option Nat :=
  if s.isEmpty then none
  else if s.all Char.isDigit then
    let v := s.foldl (fun acc c => acc * 10 + (c.toNat - 48)) 0
    if v < 2 ^ 32 then some v else none
  else none

/-- Rust `str::parse::<u32>`: an optional leading `'+'` then a
non-empty digit run; anything else (including a leading `'-'`) fails. -/
def parseU32 (s : List Char) : Option Nat :=
  match s with
  | '+' :: rest => parseDigits rest
  | _ => parseDigits s

/-- `collect::<Result<Vec<u32>, _>>` over the token iterator: the
results in order, short-circuiting at the first failing token. -/
def collectTokens (f : List Char → Option Nat) :
    List (List Char) → Option (List Nat)
  | [] => some []
  | t :: ts =>
    match f t with
    | none => none
    | some v =>
      match collectTokens f ts with
      | none => none
      | some vs => some (v :: vs)

/-- `utils::parse_codepoints`: split on `','`, trim each token, parse
each as `u32`, and collect — the first failing token fails the whole
parse. -/
def parse_codepoints (s : List Char) : Option (List Nat) :=
  collectTokens (fun t => parseU32 (rustTrim t)) (splitComma s)

/-! ## `utils.rs`: cache key (`generate_cache_filename`) -/

/-- `Vec::sort_unstable` on `u32`: sort ascending.  Embedded as
insertion sort; any correct sort agrees with it extensionally
(sorted permutations of `Nat` are unique). -/
def sortCodepoints (cps : List Nat) : List Nat :=
  List.insertionSort (· ≤ ·) cps

/-- `utils::generate_cache_filename`: sort a copy of the input; one
value gives `"<v>.woff2"`, otherwise `"cache/<v1>,<v2>,....woff2"`
with the sorted values joined by commas. -/
def generate_cache_filename (cps : List Nat) : String :=
  let sorted := sortCodepoints cps
  match sorted with
  | [v] => toString v ++ ".woff2"
  | _ => "cache/" ++ String.intercalate "," (sorted.map toString) ++ ".woff2"

/-! ## `error.rs`: `AppError` and its HTTP status mapping -/

/-- `error::AppError` (payloads kept; `u32` as `Nat`). -/
inductive AppError where
  | fontNotFound (id : String)
  | characterNotFound (cp : Nat)
  | configError (msg : String)
  | fontProcessingError (msg : String)
  | ioError (msg : String)
  | serdeError (msg : String)
  | internalError (msg : String)
  deriving Repr, DecidableEq

/-- The status classification of `impl IntoResponse for AppError`
(`error.rs`): the numeric HTTP status each error kind is mapped to. -/
def statusOf : AppError → Nat
  | .fontNotFound _ => 404
  | .characterNotFound _ => 404
  | .configError _ => 500
  | .fontProcessingError _ => 500
  | .ioError _ => 500
  | .serdeError _ => 400
  | .internalError _ => 500

/-! ## `service.rs`: data model -/

/-- Generated font bytes. -/
abbrev Bytes := List Nat

/-- `config::FontFile` (only the fields `generate_font_by_id` reads). -/
structure FontFile where
  name : String
  path : String
  font_family : String

/-- `config::FontConfig` (only the fields the service reads). -/
structure FontConfig where
  id : String
  fallback : List String
  files : List FontFile

/-- A `font::FontProcessor` as consumed by the service: the Glyph
Subsetting Engine is out of scope, so a processor is its character
coverage predicate (`contains_char`, including the `char::from_u32`
validity check) and its partial generation function (`generate_woff2`;
`none` models `Err`). -/
structure FontProcessor where
  hasChar : Nat → Bool
  gen : List Nat → Option Bytes

/-- `FontProcessor::get_available_chars`: the requested code points the
font covers, in request order. -/
def get_available_chars (p : FontProcessor) (cps : List Nat) : List Nat :=
  cps.filter p.hasChar

/-- The `FontService` registry state after `load_fonts`:
the `fonts` map with its iteration order as a list, and the
`processors` map keyed by `"<font_id>:<font_family>"` strings. -/
structure FontService where
  fonts : List FontConfig
  processors : List (String × FontProcessor)

/-- `fonts.get(font_id)`: lookup a font config by id. -/
def FontService.findFont (st : FontService) (fid : String) : Option FontConfig :=
  st.fonts.find? (fun fc => fc.id = fid)

/-! ## `service.rs`: `generate_font_by_id` / `generate_font`

The Rust function recurses through fallback lists with no visited set
and no depth bound (`Box::pin` only moves the frame to the heap).  The
embedding threads an explicit fuel through the recursion: a result of
`none` means the recursion did not finish within that fuel, so
`∀ fuel, … = none` exhibits true divergence. -/

/-- The per-file loop of `generate_font_by_id`: for each declared file,
look up its processor, filter the request to the covered code points,
and if any are covered attempt generation; an engine failure is logged
and the next file is tried. -/
def tryFiles (procs : List (String × FontProcessor)) (fid : String) :
    List FontFile → List Nat → Option Bytes
  | [], _ => none
  | f :: rest, cps =>
    match procs.lookup (fid ++ ":" ++ f.font_family) with
    | none => tryFiles procs fid rest cps
    | some p =>
      let avail := get_available_chars p cps
      if avail.isEmpty then tryFiles procs fid rest cps
      else
        match p.gen avail with
        | some b => some b
        | none => tryFiles procs fid rest cps

/-- The fallback loop of `generate_font_by_id`: recurse into each
fallback id in order; an `Ok` returns, any `Err` is ignored and the
next fallback is tried.  `rec` is the fuel-decremented recursive call;
outer `none` = out of fuel, `some none` = every fallback failed. -/
def tryFallbacks (rec : String → List Nat → Option (Except AppError Bytes)) :
    List String → List Nat → Option (Option Bytes)
  | [], _ => some none
  | fid :: rest, cps =>
    match rec fid cps with
    | none => none
    | some (.ok b) => some (some b)
    | some (.error _) => tryFallbacks rec rest cps

/-- `FontService::generate_font_by_id`, fuel-indexed.  Looks the id up
in the registry (`FontNotFound` when absent), tries each declared file,
then each fallback, and otherwise fails with
`CharacterNotFound(codepoints[0])`. -/
def generate_font_by_id (st : FontService) :
    Nat → String → List Nat → Option (Except AppError Bytes)
  | 0, _, _ => none
  | fuel + 1, fid, cps =>
    match st.findFont fid with
    | none => some (.error (.fontNotFound fid))
    | some fc =>
      match tryFiles st.processors fid fc.files cps with
      | some b => some (.ok b)
      | none =>
        match tryFallbacks (generate_font_by_id st fuel) fc.fallback cps with
        | none => none
        | some (some b) => some (.ok b)
        | some none => some (.error (.characterNotFound (cps.headD 0)))

/-- The no-identity loop of `generate_font`: try each registered font in
registry iteration order, return the first `Ok`, and fail with
`CharacterNotFound(codepoints[0])` when every font fails. -/
def tryAllFonts (rec : String → List Nat → Option (Except AppError Bytes)) :
    List FontConfig → List Nat → Option (Except AppError Bytes)
  | [], cps => some (.error (.characterNotFound (cps.headD 0)))
  | fc :: rest, cps =>
    match rec fc.id cps with
    | none => none
    | some (.ok b) => some (.ok b)
    | some (.error _) => tryAllFonts rec rest cps

/-- `FontService::generate_font`: reject an empty request with
`CharacterNotFound(0)`, delegate to `generate_font_by_id` when an id is
given, otherwise try every registered font. -/
def generate_font (st : FontService) (fuel : Nat) (fontId : Option String)
    (cps : List Nat) : Option (Except AppError Bytes) :=
  if cps.isEmpty then some (.error (.characterNotFound 0))
  else
    match fontId with
    | some fid => generate_font_by_id st fuel fid cps
    | none => tryAllFonts (generate_font_by_id st fuel) st.fonts cps

/-! ## `service.rs`: `get_cached_font`

The filesystem around one `get_cached_font` call is made explicit:
whether the cache path exists, what a read of it returns (`none` models
an `Err`), and whether the directory creation and the cache write
succeed.  The call returns its result together with the list of warning
messages it logs, so that ignored I/O failures stay visible. -/

/-- Outcomes of the filesystem operations touched by one
`get_cached_font` call. -/
structure CacheEnv where
  cacheExists : Bool
  readResult : Option Bytes
  mkdirOk : Bool
  writeOk : Bool

/-- The regeneration tail of `get_cached_font`: generate
(`?` propagates a generation error), then best-effort create the parent
directory and write the cache file — both failures are only logged —
and return the generated bytes. -/
def regen_and_store (st : FontService) (fuel : Nat) (env : CacheEnv)
    (fid : String) (cps : List Nat) :
    Option (Except AppError Bytes × List String) :=
  match generate_font st fuel (some fid) cps with
  | none => none
  | some (.error e) => some (.error e, [])
  | some (.ok woff2) =>
    let warns1 := if env.mkdirOk then [] else ["创建缓存目录失败"]
    let warns2 := warns1 ++ (if env.writeOk then [] else ["保存缓存文件失败"])
    some (.ok woff2, warns2)

/-- `FontService::get_cached_font`: serve the cached bytes when the
cache file exists and reads cleanly; treat a failed read as a miss
(logged) and fall through to regeneration. -/
def get_cached_font (st : FontService) (fuel : Nat) (env : CacheEnv)
    (fid : String) (cps : List Nat) :
    Option (Except AppError Bytes × List String) :=
  if env.cacheExists then
    match env.readResult with
    | some data => some (.ok data, [])
    | none =>
      match regen_and_store st fuel env fid cps with
      | none => none
      | some (r, warns) => some (r, "读取缓存文件失败" :: warns)
  else regen_and_store st fuel env fid cps

/-! ## `service.rs`: `regenerate_font` -/

/-- Outcomes of the filesystem operations of `regenerate_font`, per
(font id, code point). -/
structure RegenEnv where
  mkdirOk : String → Nat → Bool
  writeOk : String → Nat → Bool

/-- One iteration of the per-code-point loop of `regenerate_font` with
an identity: generate the singleton subset (`?` propagates), then
create the parent directory and write the cache file, both with `?`, so
an I/O failure aborts this font's regeneration with `IoError`. -/
def regen_one_cp (st : FontService) (fuel : Nat) (env : RegenEnv)
    (fid : String) (cp : Nat) : Option (Except AppError Unit) :=
  match generate_font st fuel (some fid) [cp] with
  | none => none
  | some (.error e) => some (.error e)
  | some (.ok _) =>
    if env.mkdirOk fid cp then
      if env.writeOk fid cp then some (.ok ())
      else some (.error (.ioError "保存缓存文件失败"))
    else some (.error (.ioError "创建缓存目录失败"))

/-- The per-code-point loop of `regenerate_font` with an identity:
stop at the first failing code point. -/
def regen_cps (st : FontService) (fuel : Nat) (env : RegenEnv)
    (fid : String) : List Nat → Option (Except AppError Unit)
  | [] => some (.ok ())
  | cp :: rest =>
    match regen_one_cp st fuel env fid cp with
    | none => none
    | some (.error e) => some (.error e)
    | some (.ok _) => regen_cps st fuel env fid rest

/-- The all-fonts loop of `regenerate_font` without an identity: call
the single-font regeneration once per registered font; a failure is
logged and the loop continues.  Returns the per-font outcomes. -/
def regen_all_fonts (one : String → Option (Except AppError Unit)) :
    List FontConfig → Option (List (String × Except AppError Unit))
  | [] => some []
  | fc :: rest =>
    match one fc.id with
    | none => none
    | some r =>
      match regen_all_fonts one rest with
      | none => none
      | some outs => some ((fc.id, r) :: outs)

/-- `FontService::regenerate_font`, instrumented with the list of
per-font attempts (the log): with an identity it regenerates each code
point's singleton cache for that font and returns that outcome; without
one it attempts every registered font independently and returns
`Ok(())` regardless of per-font failures. -/
def regenerate_font (st : FontService) (fuel : Nat) (env : RegenEnv)
    (fontId : Option String) (cps : List Nat) :
    Option (List (String × Except AppError Unit) × Except AppError Unit) :=
  match fontId with
  | some fid =>
    match regen_cps st fuel env fid cps with
    | none => none
    | some r => some ([(fid, r)], r)
  | none =>
    match regen_all_fonts (fun fid => regen_cps st fuel env fid cps) st.fonts with
    | none => none
    | some outs => some (outs, .ok ())

/-! ## `utils.rs`: the cache janitor

A cache-directory entry is modelled by whether `path.is_file()` holds
and by its modification time: `mtime = none` models
`fs::metadata`/`metadata.modified()` failing, `mtime = some t` a
readable time of `t` seconds since the epoch.  `modified.elapsed()`
fails exactly when the modification time is in the future.  In the
model `fs::remove_file` succeeds on the files the sweep selects. -/

/-- A directory entry the sweep examines. -/
structure CacheFile where
  name : String
  isFile : Bool
  mtime : Option Nat
  deriving Repr, DecidableEq

/-- `utils::is_file_expired` at current time `now`: when metadata,
modification time, or `elapsed()` is unavailable the file counts as
expired; otherwise expired iff its age strictly exceeds
`days * 24 * 3600` seconds. -/
def is_file_expired (now days : Nat) (f : CacheFile) : Bool :=
  match f.mtime with
  | none => true
  | some t => if now < t then true else decide (now - t > days * 24 * 3600)

/-- `utils::cleanup_expired_cache`: remove every regular file that
`is_file_expired` selects; returns the surviving entries and the
cleaned count. -/
def cleanup_expired_cache (now days : Nat) :
    List CacheFile → List CacheFile × Nat
  | [] => ([], 0)
  | f :: rest =>
    let (remaining, count) := cleanup_expired_cache now days rest
    if f.isFile && is_file_expired now days f then (remaining, count + 1)
    else (f :: remaining, count)

/-! ## `handlers.rs`: the `get_font` boundary -/

/-- The input validation of `handlers::get_font`: a parse failure is
mapped to `ConfigError`, then an empty code-point list is rejected with
`ConfigError` as well. -/
def handler_check (chars : String) : Except AppError (List Nat) :=
  match parse_codepoints chars.data with
  | none => .error (.configError "无效的字符码点格式")
  | some cps =>
    if cps.isEmpty then .error (.configError "字符码点不能为空")
    else .ok cps

/-- `handlers::get_font` end to end: validate, then serve via
`get_cached_font`.  The boolean records whether the cache/generation
path was entered at all. -/
def get_font_handler (st : FontService) (fuel : Nat) (env : CacheEnv)
    (id : String) (chars : String) :
    Option (Except AppError Bytes × Bool) :=
  match handler_check chars with
  | .error e => some (.error e, false)
  | .ok cps =>
    match get_cached_font st fuel env id cps with
    | none => none
    | some (r, _) => some (r, true)

/-! ## Concrete fixtures used by witnesses and counterexamples -/

/-- A processor covering every code point, echoing them as bytes. -/
def coverAll : FontProcessor := ⟨fun _ => true, fun cs => some cs⟩

/-- A font whose only file has no loaded processor (so it never
resolves anything). -/
def fontA : FontConfig := ⟨"A", [], [⟨"a", "a.ttf", "famA"⟩]⟩

/-- A font whose file is backed by `coverAll`. -/
def fontB : FontConfig := ⟨"B", [], [⟨"b", "b.ttf", "famB"⟩]⟩

/-- Registry with a failing font `A` before a succeeding font `B`. -/
def demoService : FontService := ⟨[fontA, fontB], [("B:famB", coverAll)]⟩

/-- Registry with no fonts at all. -/
def emptyService : FontService := ⟨[], []⟩

/-- Registry whose fallback lists form the cycle `A → B → A`, with no
files anywhere: exactly the configuration of the spec's cycle hazard. -/
def cyclicService : FontService := ⟨[⟨"A", ["B"], []⟩, ⟨"B", ["A"], []⟩], []⟩

/-- A filesystem where every cache operation succeeds but the cache is
cold. -/
def coldCache : CacheEnv := ⟨false, none, true, true⟩

/-- A filesystem where the cache file exists but reading it fails, and
both the directory creation and the write fail too. -/
def brokenCache : CacheEnv := ⟨true, none, false, false⟩

/-- A regeneration filesystem where every I/O operation succeeds. -/
def goodRegenEnv : RegenEnv := ⟨fun _ _ => true, fun _ _ => true⟩

/-! ## Sorting helper lemmas -/

lemma sortCodepoints_sorted (l : List Nat) :
    (sortCodepoints l).Sorted (· ≤ ·) :=
  List.sorted_insertionSort _ l

lemma sortCodepoints_perm (l : List Nat) : (sortCodepoints l).Perm l :=
  List.perm_insertionSort _ l

lemma sortCodepoints_eq_of_perm {l₁ l₂ : List Nat} (h : l₁.Perm l₂) :
    sortCodepoints l₁ = sortCodepoints l₂ :=
  List.eq_of_perm_of_sorted
    ((sortCodepoints_perm l₁).trans (h.trans (sortCodepoints_perm l₂).symm))
    (sortCodepoints_sorted l₁) (sortCodepoints_sorted l₂)

/-- **C1.** For every non-empty list of code points the cache filename
is invariant under permutation of the input (equal sorted sequences
give byte-identical strings); the sorted list is ascending and a
permutation of the input, so duplicates are preserved and not
collapsed; a single value yields `"<value>.woff2"`, two or more values
yield `"cache/<v1>,<v2>,....woff2"` joined by commas in ascending
order; and `[40341, 40339, 40340]` yields
`"cache/40339,40340,40341.woff2"` (and the duplicate input `[5, 5]`
keeps both copies). -/
theorem cache_filename_canonical (cps cps' : List Nat) (hne : cps ≠ [])
    (hperm : cps.Perm cps') :
    generate_cache_filename cps = generate_cache_filename cps'
    ∧ (∀ v, sortCodepoints cps = [v] →
        generate_cache_filename cps = toString v ++ ".woff2")
    ∧ (2 ≤ (sortCodepoints cps).length →
        generate_cache_filename cps =
          "cache/" ++
            String.intercalate "," ((sortCodepoints cps).map toString) ++
            ".woff2")
    ∧ (sortCodepoints cps).Sorted (· ≤ ·)
    ∧ (sortCodepoints cps).Perm cps
    ∧ generate_cache_filename [40341, 40339, 40340] =
        "cache/40339,40340,40341.woff2"
    ∧ generate_cache_filename [5, 5] = "cache/5,5.woff2" := by
  refine ⟨?_, ?_, ?_, sortCodepoints_sorted cps, sortCodepoints_perm cps,
    by decide, by decide⟩
  · unfold generate_cache_filename
    rw [sortCodepoints_eq_of_perm hperm]
  · intro v hv
    unfold generate_cache_filename
    rw [hv]
  · intro hlen
    unfold generate_cache_filename
    rcases hs : sortCodepoints cps with _ | ⟨a, _ | ⟨b, rest⟩⟩
    · rfl
    · rw [hs] at hlen
      simp at hlen
    · rfl

/-- Witness for C1 at the concrete permuted inputs of the spec's
example. -/
theorem cache_filename_canonical_witness :
    generate_cache_filename [40341, 40339, 40340] =
      generate_cache_filename [40339, 40341, 40340] :=
  (cache_filename_canonical [40341, 40339, 40340] [40339, 40341, 40340]
    (by decide) (by decide)).1

/-! ## C10: `parse_codepoints` -/

lemma splitComma_ne_nil (s : List Char) : splitComma s ≠ [] := by
  cases s with
  | nil => simp [splitComma]
  | cons c rest =>
    simp only [splitComma]
    by_cases h : c = ','
    · simp [h]
    · simp only [if_neg h]
      cases splitComma rest <;> simp

lemma collectTokens_isSome_iff (f : List Char → Option Nat) :
    ∀ ts : List (List Char),
      (collectTokens f ts).isSome ↔ ∀ t ∈ ts, (f t).isSome := by
  intro ts
  induction ts with
  | nil => simp [collectTokens]
  | cons t rest ih =>
    simp only [collectTokens]
    cases hf : f t with
    | none =>
      simp only [Option.isSome_none, Bool.false_eq_true, false_iff]
      intro hall
      have hmem := hall t (List.mem_cons_self t rest)
      rw [hf] at hmem
      simp at hmem
    | some v =>
      cases hr : collectTokens f rest with
      | none =>
        rw [hr] at ih
        simp only [Option.isSome_none, Bool.false_eq_true, false_iff] at ih ⊢
        intro hall
        exact ih (fun t' ht' => hall t' (List.mem_cons_of_mem _ ht'))
      | some vs =>
        rw [hr] at ih
        simp only [Option.isSome_some, true_iff] at ih ⊢
        intro t' ht'
        rcases List.mem_cons.mp ht' with rfl | h
        · rw [hf]; rfl
        · exact ih t' h

lemma collectTokens_length (f : List Char → Option Nat) :
    ∀ (ts : List (List Char)) (l : List Nat),
      collectTokens f ts = some l → l.length = ts.length := by
  intro ts
  induction ts with
  | nil => intro l h; simp only [collectTokens, Option.some.injEq] at h; simp [← h]
  | cons t rest ih =>
    intro l h
    simp only [collectTokens] at h
    cases hf : f t with
    | none => rw [hf] at h; exact absurd h (by simp)
    | some v =>
      rw [hf] at h
      cases hr : collectTokens f rest with
      | none => rw [hr] at h; exact absurd h (by simp)
      | some vs =>
        rw [hr] at h
        obtain rfl := (Option.some.injEq _ _).mp h
        simp [ih vs hr]

/-- **C10.** `parse_codepoints` succeeds iff every comma-separated
token, after trimming, parses as a decimal `u32`; a successful parse
never yields an empty list (splitting always yields at least one token,
and the empty token of the empty string fails to parse), so the
handlers' explicit empty-list rejection is unreachable for inputs that
passed parsing. -/
theorem parse_codepoints_ok_iff (s : List Char) :
    ((parse_codepoints s).isSome ↔
      ∀ t ∈ splitComma s, (parseU32 (rustTrim t)).isSome)
    ∧ (∀ l, parse_codepoints s = some l → l ≠ [])
    ∧ parse_codepoints [] = none := by
  refine ⟨collectTokens_isSome_iff _ (splitComma s), ?_, by decide⟩
  intro l hl hnil
  have hlen := collectTokens_length _ _ _ hl
  rw [hnil] at hlen
  exact splitComma_ne_nil s (List.length_eq_zero.mp hlen.symm)

/-- Witness for C10 at the spec's example input. -/
theorem parse_codepoints_ok_iff_witness :
    (parse_codepoints "40341, 40339, 40340".data).isSome :=
  (parse_codepoints_ok_iff "40341, 40339, 40340".data).1.mpr (by decide)

/-! ## C2: fallback cycles and termination -/

/-- One unfolding step of the recursion on a font with no files and a
single fallback whose own resolution has not terminated. -/
lemma generate_font_by_id_cycle_step (st : FontService) (n : Nat)
    (fidA fidB : String) (fcA : FontConfig)
    (hfind : st.findFont fidA = some fcA) (hfiles : fcA.files = [])
    (hfb : fcA.fallback = [fidB])
    (hB : generate_font_by_id st n fidB [1] = none) :
    generate_font_by_id st (n + 1) fidA [1] = none := by
  simp only [generate_font_by_id, hfind, hfiles, hfb, tryFiles,
    tryFallbacks, hB]

/-- **C2.** The fallback resolution does **not** terminate on a cyclic
registry: with fonts `A` and `B` falling back to each other and no
resolvable files, `generate_font_by_id` fails to produce a result at
*every* recursion depth — there is no depth bound or visited set in the
code, so the Rust recursion (`Box::pin` only heap-allocates the frames)
is unbounded, contrary to the claim. -/
theorem fallback_cycle_no_termination :
    ∀ fuel, generate_font_by_id cyclicService fuel "A" [1] = none ∧
      generate_font_by_id cyclicService fuel "B" [1] = none := by
  intro fuel
  induction fuel with
  | zero => exact ⟨rfl, rfl⟩
  | succ n ih =>
    exact ⟨generate_font_by_id_cycle_step cyclicService n "A" "B"
        ⟨"A", ["B"], []⟩ rfl rfl rfl ih.2,
      generate_font_by_id_cycle_step cyclicService n "B" "A"
        ⟨"B", ["A"], []⟩ rfl rfl rfl ih.1⟩

/-! ## C3: the `CharacterNotFound` payload -/

lemma generate_font_by_id_error_shape (st : FontService) (fuel : Nat)
    (fid : String) (cps : List Nat) (e : AppError)
    (h : generate_font_by_id st fuel fid cps = some (.error e)) :
    e = .fontNotFound fid ∨ e = .characterNotFound (cps.headD 0) := by
  cases fuel with
  | zero => exact absurd h (by simp [generate_font_by_id])
  | succ n =>
    simp only [generate_font_by_id] at h
    split at h
    · simp only [Option.some.injEq, Except.error.injEq] at h
      exact Or.inl h.symm
    · split at h
      · simp at h
      · split at h
        · exact absurd h (by simp)
        · simp at h
        · simp only [Option.some.injEq, Except.error.injEq] at h
          exact Or.inr h.symm

lemma tryAllFonts_error_shape
    (rec : String → List Nat → Option (Except AppError Bytes)) :
    ∀ (fonts : List FontConfig) (cps : List Nat) (e : AppError),
      tryAllFonts rec fonts cps = some (.error e) →
      e = .characterNotFound (cps.headD 0) := by
  intro fonts
  induction fonts with
  | nil =>
    intro cps e h
    simp only [tryAllFonts, Option.some.injEq] at h
    cases h; rfl
  | cons fc rest ih =>
    intro cps e h
    simp only [tryAllFonts] at h
    cases hr : rec fc.id cps with
    | none => rw [hr] at h; simp at h
    | some r =>
      rw [hr] at h
      cases r with
      | ok b => simp at h
      | error e' => exact ih cps e h

/-- **C3.** Whenever font resolution fails with `CharacterNotFound`
(all candidates exhausted — every file of the named font and its
fallbacks, or every registered font when none was named), the
diagnostic payload is the first code point of the original request
order.  Since the request failed outright, no code point at all was
resolved, so that head is in particular the first unresolved one. -/
theorem character_not_found_first_codepoint (st : FontService)
    (fuel : Nat) (fontId : Option String) (cps : List Nat) (c : Nat)
    (hne : cps ≠ [])
    (h : generate_font st fuel fontId cps =
      some (.error (.characterNotFound c))) :
    c = cps.headD 0 := by
  cases cps with
  | nil => exact absurd rfl hne
  | cons a l =>
    cases fontId with
    | some fid =>
      have h' : generate_font_by_id st fuel fid (a :: l) =
          some (.error (.characterNotFound c)) := h
      rcases generate_font_by_id_error_shape st fuel fid (a :: l) _ h'
        with h'' | h''
      · exact absurd h'' (by simp)
      · injection h''
    | none =>
      have h' : tryAllFonts (generate_font_by_id st fuel) st.fonts (a :: l) =
          some (.error (.characterNotFound c)) := h
      have h'' := tryAllFonts_error_shape (generate_font_by_id st fuel)
        st.fonts (a :: l) _ h'
      injection h''

/-- Witness for C3: in the empty registry the request `[7, 9]` fails
with `CharacterNotFound 7`, and 7 is indeed the request's head. -/
theorem character_not_found_first_codepoint_witness :
    (7 : Nat) = [7, 9].headD 0 :=
  character_not_found_first_codepoint emptyService 1 none [7, 9] 7
    (by decide) rfl

/-! ## C4: no-identity resolution order -/

lemma tryAllFonts_ok_iff
    (rec : String → List Nat → Option (Except AppError Bytes)) :
    ∀ (fonts : List FontConfig) (cps : List Nat) (b : Bytes),
      tryAllFonts rec fonts cps = some (.ok b) ↔
        ∃ pre fc post, fonts = pre ++ fc :: post ∧
          rec fc.id cps = some (.ok b) ∧
          ∀ fc' ∈ pre, ∃ e, rec fc'.id cps = some (.error e) := by
  intro fonts
  induction fonts with
  | nil =>
    intro cps b
    constructor
    · intro h; simp [tryAllFonts] at h
    · rintro ⟨pre, fc, post, habs, -, -⟩
      exact absurd habs (by simp)
  | cons fc rest ih =>
    intro cps b
    simp only [tryAllFonts]
    cases hr : rec fc.id cps with
    | none =>
      constructor
      · intro h; simp at h
      · rintro ⟨pre, fc0, post, hdec, hok, hpre⟩
        cases pre with
        | nil =>
          simp only [List.nil_append, List.cons.injEq] at hdec
          rw [← hdec.1, hr] at hok
          exact absurd hok (by simp)
        | cons p pre' =>
          simp only [List.cons_append, List.cons.injEq] at hdec
          obtain ⟨e, he⟩ := hpre p (by simp)
          rw [← hdec.1, hr] at he
          exact absurd he (by simp)
    | some r =>
      cases r with
      | ok b' =>
        constructor
        · intro h
          simp only [Option.some.injEq, Except.ok.injEq] at h
          exact ⟨[], fc, rest, by simp, by rw [hr, h], by simp⟩
        · rintro ⟨pre, fc0, post, hdec, hok, hpre⟩
          cases pre with
          | nil =>
            simp only [List.nil_append, List.cons.injEq] at hdec
            rw [← hdec.1, hr] at hok
            simp only [Option.some.injEq, Except.ok.injEq] at hok
            rw [hok]
          | cons p pre' =>
            simp only [List.cons_append, List.cons.injEq] at hdec
            obtain ⟨e, he⟩ := hpre p (by simp)
            rw [← hdec.1, hr] at he
            exact absurd he (by simp)
      | error e =>
        rw [ih cps b]
        constructor
        · rintro ⟨pre, fc0, post, hdec, hok, hpre⟩
          refine ⟨fc :: pre, fc0, post, by rw [hdec]; rfl, hok, ?_⟩
          intro fc' hfc'
          rcases List.mem_cons.mp hfc' with rfl | hmem
          · exact ⟨e, hr⟩
          · exact hpre fc' hmem
        · rintro ⟨pre, fc0, post, hdec, hok, hpre⟩
          cases pre with
          | nil =>
            simp only [List.nil_append, List.cons.injEq] at hdec
            rw [← hdec.1, hr] at hok
            simp at hok
          | cons p pre' =>
            simp only [List.cons_append, List.cons.injEq] at hdec
            exact ⟨pre', fc0, post, hdec.2, hok,
              fun fc' hfc' => hpre fc' (List.mem_cons_of_mem _ hfc')⟩

lemma tryAllFonts_error_iff
    (rec : String → List Nat → Option (Except AppError Bytes)) :
    ∀ (fonts : List FontConfig) (cps : List Nat) (e : AppError),
      tryAllFonts rec fonts cps = some (.error e) ↔
        e = .characterNotFound (cps.headD 0) ∧
          ∀ fc ∈ fonts, ∃ e', rec fc.id cps = some (.error e') := by
  intro fonts
  induction fonts with
  | nil =>
    intro cps e
    simp only [tryAllFonts, Option.some.injEq, List.not_mem_nil]
    constructor
    · intro h; cases h; simp
    · rintro ⟨rfl, -⟩; rfl
  | cons fc rest ih =>
    intro cps e
    simp only [tryAllFonts]
    cases hr : rec fc.id cps with
    | none =>
      constructor
      · intro h; simp at h
      · rintro ⟨-, hall⟩
        obtain ⟨e', he'⟩ := hall fc (by simp)
        rw [hr] at he'
        exact absurd he' (by simp)
    | some r =>
      cases r with
      | ok b =>
        constructor
        · intro h; simp at h
        · rintro ⟨-, hall⟩
          obtain ⟨e', he'⟩ := hall fc (by simp)
          rw [hr] at he'
          exact absurd he' (by simp)
      | error e'' =>
        rw [ih cps e]
        constructor
        · rintro ⟨rfl, hall⟩
          refine ⟨rfl, ?_⟩
          intro fc' hfc'
          rcases List.mem_cons.mp hfc' with rfl | hmem
          · exact ⟨e'', hr⟩
          · exact hall fc' hmem
        · rintro ⟨rfl, hall⟩
          exact ⟨rfl, fun fc' hfc' => hall fc' (List.mem_cons_of_mem _ hfc')⟩

/-- **C4.** For a non-empty request with no font identity,
`generate_font` walks the registered fonts in registry iteration order:
it returns bytes `b` exactly when some font succeeds with `b` and every
font before it fails, and it returns an error exactly when that error
is `CharacterNotFound` at the request's first code point and every
registered font fails. -/
theorem generate_font_no_id_first_success (st : FontService) (fuel : Nat)
    (cps : List Nat) (hne : cps ≠ []) :
    (∀ b, generate_font st fuel none cps = some (.ok b) ↔
      ∃ pre fc post, st.fonts = pre ++ fc :: post ∧
        generate_font_by_id st fuel fc.id cps = some (.ok b) ∧
        ∀ fc' ∈ pre, ∃ e,
          generate_font_by_id st fuel fc'.id cps = some (.error e))
    ∧ (∀ e, generate_font st fuel none cps = some (.error e) ↔
      e = .characterNotFound (cps.headD 0) ∧
        ∀ fc ∈ st.fonts, ∃ e',
          generate_font_by_id st fuel fc.id cps = some (.error e')) := by
  cases cps with
  | nil => exact absurd rfl hne
  | cons a l =>
    have hgen : generate_font st fuel none (a :: l) =
        tryAllFonts (generate_font_by_id st fuel) st.fonts (a :: l) := rfl
    rw [hgen]
    exact ⟨fun b => tryAllFonts_ok_iff _ st.fonts (a :: l) b,
      fun e => tryAllFonts_error_iff _ st.fonts (a :: l) e⟩

/-- Witness for C4: in `demoService` font `A` fails and font `B`
succeeds, so the no-identity path returns `B`'s bytes. -/
theorem generate_font_no_id_first_success_witness :
    generate_font demoService 1 none [7] = some (.ok [7]) :=
  ((generate_font_no_id_first_success demoService 1 [7] (by decide)).1
    [7]).mpr
    ⟨[fontA], fontB, [], rfl, rfl, by
      intro fc' hfc'
      simp only [List.mem_singleton] at hfc'
      subst hfc'
      exact ⟨.characterNotFound 7, rfl⟩⟩

/-! ## C5: rejection of empty requests at the boundary -/

/-- Counterexample to C5 as stated: both rejection paths of the
boundary use `ConfigError`, whose status classification is 500 (a
server-side classification), not a bad-input one; and the service's own
empty-list check returns `CharacterNotFound(0)`, a not-found
classification (404).  No `InvalidInput`-like bad-input kind is
involved anywhere. -/
theorem empty_request_counterexample :
    handler_check "" = .error (.configError "无效的字符码点格式")
    ∧ statusOf (.configError "无效的字符码点格式") = 500
    ∧ generate_font emptyService 1 (some "A") [] =
        some (.error (.characterNotFound 0))
    ∧ statusOf (.characterNotFound 0) = 404
    ∧ (500 : Nat) ≠ 400 := ⟨rfl, rfl, rfl, rfl, by decide⟩

/-- **C5 (amended).** A request whose code-point set is empty (its
parse fails, or — unreachably — parses to an empty list) is rejected at
the boundary with a `ConfigError` (mapped to status 500, a server-side
classification, not a bad-input one), and no font generation or cache
access is performed for it. -/
theorem empty_request_rejected_at_boundary (st : FontService) (fuel : Nat)
    (env : CacheEnv) (id chars : String)
    (h : ∀ cps, parse_codepoints chars.data = some cps → cps = []) :
    ∃ msg, get_font_handler st fuel env id chars =
      some (.error (.configError msg), false) := by
  unfold get_font_handler handler_check
  cases hp : parse_codepoints chars.data with
  | none => exact ⟨"无效的字符码点格式", rfl⟩
  | some cps =>
    have hc := h cps hp
    subst hc
    exact ⟨"字符码点不能为空", rfl⟩

/-- Witness for the amended C5 at the literally empty request. -/
theorem empty_request_rejected_at_boundary_witness :
    ∃ msg, get_font_handler emptyService 1 coldCache "A" "" =
      some (.error (.configError msg), false) :=
  empty_request_rejected_at_boundary emptyService 1 coldCache "A" ""
    (by
      intro cps hc
      rw [show parse_codepoints "".data = none from rfl] at hc
      cases hc)

/-! ## C6: cache-store I/O failures never fail a request -/

lemma regen_and_store_error_inv (st : FontService) (fuel : Nat)
    (env : CacheEnv) (fid : String) (cps : List Nat) (e : AppError)
    (warns : List String)
    (h : regen_and_store st fuel env fid cps = some (.error e, warns)) :
    generate_font st fuel (some fid) cps = some (.error e) := by
  cases hg : generate_font st fuel (some fid) cps with
  | none =>
    simp only [regen_and_store, hg] at h
    exact Option.noConfusion h
  | some r =>
    cases r with
    | error e' =>
      simp only [regen_and_store, hg, Option.some.injEq, Prod.mk.injEq,
        Except.error.injEq] at h
      rw [h.1]
    | ok b =>
      simp only [regen_and_store, hg, Option.some.injEq, Prod.mk.injEq] at h
      exact Except.noConfusion h.1

/-- **C6.** Cache-store I/O failures are never surfaced by
`get_cached_font`: a failed read of an existing cache file degrades to
the regeneration path; an error result can only be a generation error;
and once generation succeeds the generated bytes are returned even when
the directory creation and the cache write both fail. -/
theorem cache_errors_never_fail_request (st : FontService) (fuel : Nat)
    (env : CacheEnv) (fid : String) (cps : List Nat) :
    (env.cacheExists = true → env.readResult = none →
      (get_cached_font st fuel env fid cps).map Prod.fst =
        (regen_and_store st fuel env fid cps).map Prod.fst)
    ∧ (∀ e warns, get_cached_font st fuel env fid cps =
        some (.error e, warns) →
        generate_font st fuel (some fid) cps = some (.error e))
    ∧ (∀ b, generate_font st fuel (some fid) cps = some (.ok b) →
        env.cacheExists = false ∨ env.readResult = none →
        ∃ warns, get_cached_font st fuel env fid cps =
          some (.ok b, warns)) := by
  refine ⟨?_, ?_, ?_⟩
  · intro hce hrr
    unfold get_cached_font
    simp only [hce, if_true, hrr]
    cases hR : regen_and_store st fuel env fid cps with
    | none => rfl
    | some rw0 => obtain ⟨r, warns⟩ := rw0; rfl
  · intro e warns h
    unfold get_cached_font at h
    by_cases hce : env.cacheExists = true
    · rw [if_pos hce] at h
      cases hrr : env.readResult with
      | some data =>
        simp only [hrr, Option.some.injEq, Prod.mk.injEq] at h
        exact Except.noConfusion h.1
      | none =>
        simp only [hrr] at h
        cases hR : regen_and_store st fuel env fid cps with
        | none =>
          simp only [hR] at h
          exact Option.noConfusion h
        | some rw0 =>
          obtain ⟨r, ws⟩ := rw0
          simp only [hR, Option.some.injEq, Prod.mk.injEq] at h
          rw [h.1] at hR
          exact regen_and_store_error_inv st fuel env fid cps e _ hR
    · rw [if_neg hce] at h
      exact regen_and_store_error_inv st fuel env fid cps e warns h
  · intro b hb hmiss
    have hR : ∃ warns, regen_and_store st fuel env fid cps =
        some (.ok b, warns) := by
      unfold regen_and_store
      simp only [hb]
      exact ⟨_, rfl⟩
    obtain ⟨warns, hR⟩ := hR
    rcases hmiss with hce | hrr
    · unfold get_cached_font
      rw [if_neg (by simp [hce])]
      exact ⟨warns, hR⟩
    · by_cases hce : env.cacheExists = true
      · unfold get_cached_font
        rw [if_pos hce]
        simp only [hrr, hR]
        exact ⟨"读取缓存文件失败" :: warns, rfl⟩
      · unfold get_cached_font
        rw [if_neg hce]
        exact ⟨warns, hR⟩

/-- Witness for C6: the cache file exists but its read fails, the
directory creation fails and the write fails, yet the request still
returns the generated bytes. -/
theorem cache_errors_never_fail_request_witness :
    ∃ warns, get_cached_font demoService 1 brokenCache "B" [7] =
      some (.ok [7], warns) :=
  (cache_errors_never_fail_request demoService 1 brokenCache "B" [7]).2.2
    [7] rfl (Or.inr rfl)

/-! ## C7 and C8: the cache janitor -/

/-- The expiry condition exactly as the claim words it: expired iff the
metadata or modification time cannot be read, or the file's age
`now - t` strictly exceeds `days * 24 * 3600` seconds.  (Claim-side
definition, to be compared with the code's `is_file_expired`.) -/
def claimExpired (now days : Nat) (f : CacheFile) : Bool :=
  match f.mtime with
  | none => true
  | some t => decide (now - t > days * 24 * 3600)

/-- Counterexample to C7 as stated: a regular file whose readable
modification time lies in the future (`mtime = 8` at `now = 7`) is not
older than the 7-day window — the claim's predicate keeps it — yet the
sweep removes it, because `modified.elapsed()` fails on a future time
and any failure is treated as expired. -/
theorem janitor_future_mtime_counterexample :
    cleanup_expired_cache 7 7 [⟨"f.woff2", true, some 8⟩] = ([], 1)
    ∧ claimExpired 7 7 ⟨"f.woff2", true, some 8⟩ = false := ⟨rfl, rfl⟩

lemma cleanup_expired_cache_spec (now days : Nat) :
    ∀ entries : List CacheFile,
      cleanup_expired_cache now days entries =
        (entries.filter (fun f => !(f.isFile && is_file_expired now days f)),
          (entries.filter
            (fun f => f.isFile && is_file_expired now days f)).length) := by
  intro entries
  induction entries with
  | nil => rfl
  | cons f rest ih =>
    simp only [cleanup_expired_cache, ih, List.filter]
    by_cases h : (f.isFile && is_file_expired now days f) = true
    · simp [h]
    · simp [h]

/-- **C7 (amended).** The sweep removes exactly the regular files that
`is_file_expired` selects, and `is_file_expired` holds iff the
modification time cannot be read, **or lies in the future** (a failing
`elapsed()` also counts as expired), or the age strictly exceeds
`days * 24 * 3600` seconds. -/
theorem janitor_removes_exactly_expired (now days : Nat)
    (entries : List CacheFile) :
    (cleanup_expired_cache now days entries).1 =
      entries.filter (fun f => !(f.isFile && is_file_expired now days f))
    ∧ (cleanup_expired_cache now days entries).2 =
      (entries.filter (fun f => f.isFile && is_file_expired now days f)).length
    ∧ (∀ f : CacheFile, f.mtime = none → is_file_expired now days f = true)
    ∧ (∀ (f : CacheFile) (t : Nat), f.mtime = some t →
        (is_file_expired now days f = true ↔
          (now < t ∨ now - t > days * 24 * 3600))) := by
  refine ⟨by rw [cleanup_expired_cache_spec], by rw [cleanup_expired_cache_spec],
    ?_, ?_⟩
  · intro f hf
    simp [is_file_expired, hf]
  · intro f t hf
    simp only [is_file_expired, hf]
    by_cases hlt : now < t
    · simp [hlt]
    · simp [hlt]

/-- Witness for the amended C7: an unreadable modification time counts
as expired. -/
theorem janitor_removes_exactly_expired_witness :
    is_file_expired 100 7 ⟨"m.woff2", true, none⟩ = true :=
  (janitor_removes_exactly_expired 100 7 []).2.2.1 ⟨"m.woff2", true, none⟩ rfl

/-- **C8.** The janitor sweep is idempotent: running it again on the
surviving entries at the same instant removes nothing (the second
cleaned count is zero). -/
theorem janitor_idempotent (now days : Nat) (entries : List CacheFile) :
    (cleanup_expired_cache now days
      (cleanup_expired_cache now days entries).1).2 = 0 := by
  rw [cleanup_expired_cache_spec now days entries]
  rw [cleanup_expired_cache_spec now days]
  simp [List.filter_filter]

/-! ## C9: all-fonts regeneration is per-font independent -/

lemma regen_all_fonts_outs (one : String → Option (Except AppError Unit)) :
    ∀ (fonts : List FontConfig) (outs : List (String × Except AppError Unit)),
      regen_all_fonts one fonts = some outs →
      outs.map Prod.fst = fonts.map FontConfig.id := by
  intro fonts
  induction fonts with
  | nil =>
    intro outs h
    simp only [regen_all_fonts, Option.some.injEq] at h
    rw [← h]
    rfl
  | cons fc rest ih =>
    intro outs h
    simp only [regen_all_fonts] at h
    cases ho : one fc.id with
    | none =>
      simp only [ho] at h
      exact Option.noConfusion h
    | some r =>
      simp only [ho] at h
      cases hr : regen_all_fonts one rest with
      | none =>
        simp only [hr] at h
        exact Option.noConfusion h
      | some outs' =>
        simp only [hr, Option.some.injEq] at h
        rw [← h]
        simp only [List.map_cons]
        rw [ih outs' hr]

/-- **C9.** When `regenerate_font` is called with no font identity, the
loop attempts regeneration once per registered font identity (one
outcome per font, in registry order), and whenever the loop completes
the overall result is `Ok(())` regardless of how many per-font attempts
failed. -/
theorem regenerate_all_fonts_independent (st : FontService) (fuel : Nat)
    (env : RegenEnv) (cps : List Nat)
    (outs : List (String × Except AppError Unit)) (r : Except AppError Unit)
    (h : regenerate_font st fuel env none cps = some (outs, r)) :
    r = .ok () ∧ outs.map Prod.fst = st.fonts.map FontConfig.id := by
  simp only [regenerate_font] at h
  cases ha : regen_all_fonts (fun fid => regen_cps st fuel env fid cps)
      st.fonts with
  | none =>
    simp only [ha] at h
    exact Option.noConfusion h
  | some outs' =>
    simp only [ha, Option.some.injEq, Prod.mk.injEq] at h
    obtain ⟨rfl, rfl⟩ := h
    exact ⟨rfl, regen_all_fonts_outs _ st.fonts outs' ha⟩

/-- Witness for C9: in `demoService` the regeneration of font `A`
fails and of font `B` succeeds, and the overall outcome is still
`Ok(())` with one attempt per font. -/
theorem regenerate_all_fonts_independent_witness :
    (Except.ok () : Except AppError Unit) = .ok () ∧
      ([("A", (Except.error (AppError.characterNotFound 7) :
          Except AppError Unit)), ("B", .ok ())].map Prod.fst) =
        demoService.fonts.map FontConfig.id :=
  regenerate_all_fonts_independent demoService 1 goodRegenEnv [7]
    [("A", .error (.characterNotFound 7)), ("B", .ok ())] (.ok ()) rfl

end WebfontZh
